import Mathlib

/-!
# Verification of the solana-counter on-chain program

Shallow embedding of the counter smart contract
(`src/smart-contract/src/{instruction,state,error,processor}.rs`) in Lean 4.

Modelling conventions:
* bytes are `Nat` values (`< 256` where produced by an encoder); account
  public keys are 32-byte lists;
* the cryptographic address derivations (`Pubkey::create_with_seed` for the
  counter address, `Pubkey::find_program_address` for the settings address)
  are host/crypto primitives; following the injected-interface
  prescription they are a parameter (`AddrDerivation`) of the processor model;
* borsh (de)serialization of the concrete types in this program is spelled
  out byte-for-byte: enum tag byte followed by the fields, `u32` and `i64`
  little-endian, and `try_from_slice` rejects unconsumed trailing bytes;
* `i64` arithmetic wraps (twos complement), matching the on-chain release
  build of `counter.value += settings.inc_step as i64`;
* an error outcome carries no buffer writes: the host aborts the whole
  transaction atomically on failure, so the model returns either
  `Except.error e` (no mutation) or `Except.ok bufs` with the final data
  buffers of every supplied account, in account order.
-/

/-- Little-endian byte encoding of an unsigned 32-bit value
(borsh `u32` serialization). -/
def u32le (n : Nat) : List Nat :=
  [n % 256, n / 256 % 256, n / 65536 % 256, n / 16777216 % 256]

/-- Reassemble an unsigned 32-bit value from its four little-endian bytes
(borsh `u32` deserialization). -/
def u32dec (b0 b1 b2 b3 : Nat) : Nat :=
  b0 + 256 * b1 + 65536 * b2 + 16777216 * b3

/-- Wrap an integer into the signed 64-bit range (twos complement). -/
def wrap64 (z : Int) : Int :=
  (z + 2 ^ 63) % 2 ^ 64 - 2 ^ 63

/-- Little-endian twos-complement encoding of a signed 64-bit value
(borsh `i64` serialization). -/
def i64le (v : Int) : List Nat :=
  let n := (v % 2 ^ 64).toNat
  [n % 256, n / 2 ^ 8 % 256, n / 2 ^ 16 % 256, n / 2 ^ 24 % 256,
   n / 2 ^ 32 % 256, n / 2 ^ 40 % 256, n / 2 ^ 48 % 256, n / 2 ^ 56 % 256]

/-- Reassemble a signed 64-bit value from its eight little-endian
twos-complement bytes (borsh `i64` deserialization). -/
def i64dec (b0 b1 b2 b3 b4 b5 b6 b7 : Nat) : Int :=
  let n : Nat := b0 + 2 ^ 8 * b1 + 2 ^ 16 * b2 + 2 ^ 24 * b3 + 2 ^ 32 * b4 +
    2 ^ 40 * b5 + 2 ^ 48 * b6 + 2 ^ 56 * b7
  if n < 2 ^ 63 then (n : Int) else (n : Int) - 2 ^ 64

/-- Source `state.rs`: `struct Counter \x7b value: i64 \x7d`. -/
structure Counter where
  value : Int
deriving DecidableEq

/-- Source `state.rs`: `struct Settings \x7b admin: Pubkey, inc_step: u32, dec_step: u32 \x7d`.
The admin public key is its 32-byte representation. -/
structure Settings where
  admin : List Nat
  inc_step : Nat
  dec_step : Nat
deriving DecidableEq

/-- Borsh serialization of `Counter`: the 8 little-endian bytes of `value`. -/
def encodeCounter (c : Counter) : List Nat := i64le c.value

/-- Borsh `Counter::try_from_slice`: exactly 8 bytes, little-endian `i64`;
any other length fails. -/
def decodeCounter : List Nat → Option Int
  | [b0, b1, b2, b3, b4, b5, b6, b7] => some (i64dec b0 b1 b2 b3 b4 b5 b6 b7)
  | _ => none

/-- Borsh serialization of `Settings`: 32 admin bytes, then `inc_step` and
`dec_step` as little-endian `u32` — 40 bytes. -/
def encodeSettings (s : Settings) : List Nat :=
  s.admin ++ u32le s.inc_step ++ u32le s.dec_step

/-- Borsh `Settings::try_from_slice`: exactly 40 bytes — 32 admin bytes then
two little-endian `u32` fields; any other length fails. -/
def decodeSettings (bs : List Nat) : Option Settings :=
  match bs.drop 32 with
  | [i0, i1, i2, i3, d0, d1, d2, d3] =>
      some ⟨bs.take 32, u32dec i0 i1 i2 i3, u32dec d0 d1 d2 d3⟩
  | _ => none

/-- Source `instruction.rs`: the `CounterInstruction` enum. -/
inductive CounterInstruction where
  | inc
  | dec
  | reset
  | updSett (admin : List Nat) (inc_step dec_step : Nat)
deriving DecidableEq

/-- Borsh serialization of `CounterInstruction` (`try_to_vec`): one tag byte
(0=Inc, 1=Dec, 2=Reset, 3=UpdSett), then for UpdSett the 32 admin bytes and
the two little-endian `u32` step fields. -/
def encodeInstr : CounterInstruction → List Nat
  | .inc => [0]
  | .dec => [1]
  | .reset => [2]
  | .updSett a i d => 3 :: (a ++ u32le i ++ u32le d)

/-- Borsh `CounterInstruction::try_from_slice`: dispatch on the tag byte,
read the payload of the variant, and reject any unconsumed trailing bytes. -/
def decodeInstr (bs : List Nat) : Option CounterInstruction :=
  match bs with
  | [] => none
  | b :: rest =>
    if b = 0 then (if rest = [] then some .inc else none)
    else if b = 1 then (if rest = [] then some .dec else none)
    else if b = 2 then (if rest = [] then some .reset else none)
    else if b = 3 then
      match rest.drop 32 with
      | [i0, i1, i2, i3, d0, d1, d2, d3] =>
          some (.updSett (rest.take 32) (u32dec i0 i1 i2 i3) (u32dec d0 d1 d2 d3))
      | _ => none
    else none

/-- A structurally valid instruction value: UpdSett carries a 32-byte admin
key and `u32`-ranged step fields. -/
def validInstr : CounterInstruction → Prop
  | .updSett a i d => a.length = 32 ∧ i < 2 ^ 32 ∧ d < 2 ^ 32
  | _ => True

-- Basic codec lemmas ---------------------------------------------------------

theorem u32dec_u32le (n : Nat) (h : n < 2 ^ 32) :
    u32dec (n % 256) (n / 256 % 256) (n / 65536 % 256) (n / 16777216 % 256) = n := by
  unfold u32dec
  omega

theorem length_u32le (n : Nat) : (u32le n).length = 4 := rfl

theorem length_i64le (v : Int) : (i64le v).length = 8 := rfl

theorem decodeCounter_length {bs : List Nat} {v : Int}
    (h : decodeCounter bs = some v) : bs.length = 8 := by
  unfold decodeCounter at h
  split at h
  · simp_all
  · simp at h

theorem decodeSettings_length {bs : List Nat} {s : Settings}
    (h : decodeSettings bs = some s) : bs.length = 40 := by
  unfold decodeSettings at h
  split at h
  · rename_i i0 i1 i2 i3 d0 d1 d2 d3 heq
    have := congrArg List.length heq
    simp [List.length_drop] at this
    omega
  · simp at h

theorem decodeSettings_encodeSettings (s : Settings) (h : s.admin.length = 32)
    (hi : s.inc_step < 2 ^ 32) (hd : s.dec_step < 2 ^ 32) :
    decodeSettings (encodeSettings s) = some s := by
  have hdrop : (encodeSettings s).drop 32 = u32le s.inc_step ++ u32le s.dec_step := by
    rw [encodeSettings, List.append_assoc, ← h, List.drop_left]
  have htake : (encodeSettings s).take 32 = s.admin := by
    rw [encodeSettings, List.append_assoc, ← h, List.take_left]
  rw [decodeSettings, hdrop]
  simp only [u32le, List.cons_append, List.nil_append]
  rw [htake, u32dec_u32le _ hi, u32dec_u32le _ hd]

theorem decodeInstr_encodeInstr (x : CounterInstruction) (hv : validInstr x) :
    decodeInstr (encodeInstr x) = some x := by
  cases x with
  | inc => rfl
  | dec => rfl
  | reset => rfl
  | updSett a i d =>
    obtain ⟨ha, hi, hd⟩ := hv
    have hdrop : (a ++ (u32le i ++ u32le d)).drop 32 = u32le i ++ u32le d := by
      rw [← ha, List.drop_left]
    simp only [encodeInstr, decodeInstr]
    norm_num
    rw [hdrop]
    simp only [u32le, List.cons_append, List.nil_append]
    rw [← ha, List.take_left, u32dec_u32le _ hi, u32dec_u32le _ hd]

theorem wrap64_lb (z : Int) : -(2 ^ 63) ≤ wrap64 z := by
  unfold wrap64
  omega

theorem wrap64_ub (z : Int) : wrap64 z < 2 ^ 63 := by
  unfold wrap64
  omega

theorem decodeCounter_i64le (v : Int) (h1 : -(2 ^ 63) ≤ v) (h2 : v < 2 ^ 63) :
    decodeCounter (i64le v) = some v := by
  simp only [i64le, decodeCounter, i64dec, Option.some.injEq]
  split <;> omega

-- The processor model --------------------------------------------------------

/-- The outcome codes a failing instruction surfaces to the host
(`solana_program::program_error::ProgramError` restricted to the codes this
program can produce; `custom n` is `ProgramError::Custom(n)`). -/
inductive ProgErr where
  | borshFailed
  | missingRequiredSignature
  | invalidArgument
  | notEnoughAccountKeys
  | panicked
  | custom (code : Nat)
deriving DecidableEq

/-- Source `error.rs`: discriminant of `CounterError::AdminRequired` as `u32`. -/
def adminRequiredCode : Nat := 0

/-- Source `error.rs`: discriminant of `CounterError::WrongCounterPDA` as `u32`. -/
def wrongCounterPDACode : Nat := 1

/-- Source `error.rs`: discriminant of `CounterError::WrongSettingsPDA` as `u32`. -/
def wrongSettingsPDACode : Nat := 2

/-- The slice of `solana_program::account_info::AccountInfo` the program
reads: key, signer flag, writable flag, and the data buffer of the account. -/
structure AccountInfo where
  key : List Nat
  is_signer : Bool
  is_writable : Bool
  data : List Nat
deriving DecidableEq

/-- The two cryptographic address derivations of `state.rs`
(`Pubkey::create_with_seed(user, "counter", id())` and
`Pubkey::find_program_address(["settings"], id())`): host/crypto primitives,
abstracted as an arbitrary derivation map and a fixed settings address, per
the injected-interface treatment the spec prescribes for of key-space mathematics. -/
structure AddrDerivation where
  counterPk : List Nat → List Nat
  settingsPk : List Nat

/-- Source `state.rs` `Counter::check_counter_pk`: the candidate equals the derived
counter address for the user. (`create_with_seed` with the literal 7-byte
seed never returns `Err`, so the error branch in the source is unreachable.) -/
def check_counter_pk (D : AddrDerivation) (user cand : List Nat) : Bool :=
  decide (cand = D.counterPk user)

/-- Source `state.rs` `Settings::check_settings_pk`: the candidate equals the
derived singleton settings address. -/
def check_settings_pk (D : AddrDerivation) (cand : List Nat) : Bool :=
  decide (cand = D.settingsPk)

/-- Borsh `serialize(&mut &mut buf[..])`: write the encoded bytes over the
front of the buffer, keep the rest; fail (IO error) if the buffer is too
short. -/
def writeAll (enc buf : List Nat) : Option (List Nat) :=
  if enc.length ≤ buf.length then some (enc ++ buf.drop enc.length) else none

/-- All-zero 32-byte address, `Pubkey::new(&[0_u8; 32])`: the "unclaimed
admin" sentinel. -/
def zero32 : List Nat := List.replicate 32 0

/-- Store a counter value into the slot-1 account buffer and return the final
data buffers of all accounts in order (shared tail of `process_operation`
and `process_reset`: `counter.serialize(&mut &mut counter_acc.data...)`). -/
def storeCounterAt (accounts : List AccountInfo) (buf : List Nat) (v : Int) :
    Except ProgErr (List (List Nat)) :=
  match writeAll (i64le v) buf with
  | some newbuf => .ok ((accounts.map AccountInfo.data).set 1 newbuf)
  | none => .error .borshFailed

/-- Source `processor.rs` `Processor::process_operation` (Inc and Dec): accounts are
user, counter, settings; checks are the user signature, the counter address
(only when the counter slot is not writable), and the settings address (the
source returns `WrongCounterPDA` for the latter too); then
`counter.value ± settings.step` with wrapping `i64` arithmetic. Any other
instruction hits the panicking catch-all arm of the source. -/
def process_operation (D : AddrDerivation) (accounts : List AccountInfo)
    (inst : CounterInstruction) : Except ProgErr (List (List Nat)) :=
  match accounts[0]?, accounts[1]?, accounts[2]? with
  | some user_acc, some counter_acc, some settings_acc =>
    if user_acc.is_signer = false then .error .missingRequiredSignature
    else if counter_acc.is_writable = false ∧
        check_counter_pk D user_acc.key counter_acc.key = false then
      .error (.custom wrongCounterPDACode)
    else if check_settings_pk D settings_acc.key = false then
      .error (.custom wrongCounterPDACode)
    else
      match decodeSettings settings_acc.data, decodeCounter counter_acc.data with
      | some s, some v =>
        match inst with
        | .inc => storeCounterAt accounts counter_acc.data (wrap64 (v + s.inc_step))
        | .dec => storeCounterAt accounts counter_acc.data (wrap64 (v - s.dec_step))
        | _ => .error .panicked
      | _, _ => .error .borshFailed
  | _, _, _ => .error .notEnoughAccountKeys

/-- Source `processor.rs` `Processor::process_reset`: accounts are user and counter;
checks are the user signature and the (writable-gated) counter address; then
`counter.value = 0`. No settings account is read. -/
def process_reset (D : AddrDerivation) (accounts : List AccountInfo) :
    Except ProgErr (List (List Nat)) :=
  match accounts[0]?, accounts[1]? with
  | some user_acc, some counter_acc =>
    if user_acc.is_signer = false then .error .missingRequiredSignature
    else if counter_acc.is_writable = false ∧
        check_counter_pk D user_acc.key counter_acc.key = false then
      .error (.custom wrongCounterPDACode)
    else
      match decodeCounter counter_acc.data with
      | some _ => storeCounterAt accounts counter_acc.data 0
      | none => .error .borshFailed
  | _, _ => .error .notEnoughAccountKeys

/-- Source `processor.rs` `Processor::process_upd_sett`: accounts are admin,
settings, rent sysvar, system program. Checks: admin signature, admin slot
writable (`AdminRequired`), settings address (`InvalidArgument`). If the
settings buffer is empty, `create_settings_account` asks the system program
to create the 40-byte account, which the host zero-initializes (rent is only
a lamport amount and is not modelled). Then the stored admin must be the
caller or the zero sentinel, after which the instruction payload overwrites
all three fields. -/
def process_upd_sett (D : AddrDerivation) (accounts : List AccountInfo)
    (admin : List Nat) (inc_step dec_step : Nat) : Except ProgErr (List (List Nat)) :=
  match accounts[0]?, accounts[1]?, accounts[2]?, accounts[3]? with
  | some admin_acc, some settings_acc, some _rent_acc, some _sys_acc =>
    if admin_acc.is_signer = false then .error .missingRequiredSignature
    else if admin_acc.is_writable = false then .error (.custom adminRequiredCode)
    else if check_settings_pk D settings_acc.key = false then .error .invalidArgument
    else
      let data0 := if settings_acc.data = [] then List.replicate 40 0 else settings_acc.data
      match decodeSettings data0 with
      | some s =>
        if s.admin ≠ admin_acc.key ∧ s.admin ≠ zero32 then
          .error (.custom adminRequiredCode)
        else
          match writeAll (encodeSettings ⟨admin, inc_step, dec_step⟩) data0 with
          | some newbuf => .ok ((accounts.map AccountInfo.data).set 1 newbuf)
          | none => .error .borshFailed
      | none => .error .borshFailed
  | _, _, _, _ => .error .notEnoughAccountKeys

/-- Source `processor.rs` `Processor::process`: decode the raw instruction bytes and
dispatch to the per-opcode handler. -/
def process (D : AddrDerivation) (accounts : List AccountInfo) (raw_data : List Nat) :
    Except ProgErr (List (List Nat)) :=
  match decodeInstr raw_data with
  | none => .error .borshFailed
  | some .inc => process_operation D accounts .inc
  | some .dec => process_operation D accounts .dec
  | some .reset => process_reset D accounts
  | some (.updSett a i d) => process_upd_sett D accounts a i d

deriving instance DecidableEq for Except

-- Concrete fixtures for instantiating the theorems at explicit inputs ---------

/-- Fixture derivation: an arbitrary concrete address-derivation map. -/
def fixDeriv : AddrDerivation := ⟨fun _ => List.replicate 32 7, List.replicate 32 9⟩

/-- Fixture user account: signer, not writable. -/
def fixUser : AccountInfo := ⟨List.replicate 32 1, true, false, []⟩

/-- Fixture counter account: writable, at the derived counter address,
holding value 0. -/
def fixCounter : AccountInfo := ⟨List.replicate 32 7, true, true, i64le 0⟩

/-- Fixture counter account: not writable and at a wrong address. -/
def fixCounterRO : AccountInfo := ⟨List.replicate 32 6, true, false, i64le 0⟩

/-- Fixture settings account at the derived settings address, storing
admin = 32 bytes of 3, inc_step = 9, dec_step = 5. -/
def fixSettings : AccountInfo :=
  ⟨List.replicate 32 9, false, false, encodeSettings ⟨List.replicate 32 3, 9, 5⟩⟩

/-- Fixture settings account at a wrong address (same stored bytes). -/
def fixBadSettings : AccountInfo :=
  ⟨List.replicate 32 8, false, false, encodeSettings ⟨List.replicate 32 3, 9, 5⟩⟩

/-- Fixture admin account whose key is the stored admin of `fixSettings`. -/
def fixAdmin : AccountInfo := ⟨List.replicate 32 3, true, true, []⟩

/-- Fixture signer account whose key differs from the stored admin. -/
def fixOtherAdmin : AccountInfo := ⟨List.replicate 32 5, true, true, []⟩

/-- Fixture rent-sysvar slot. -/
def fixRent : AccountInfo := ⟨List.replicate 32 11, false, false, []⟩

/-- Fixture system-program slot. -/
def fixSys : AccountInfo := ⟨List.replicate 32 12, false, false, []⟩

-- Processor lemmas ------------------------------------------------------------

theorem counter_gate_passes {D : AddrDerivation} {u c : AccountInfo}
    (hcheck : c.is_writable = true ∨ check_counter_pk D u.key c.key = true) :
    ¬(c.is_writable = false ∧ check_counter_pk D u.key c.key = false) := by
  rcases hcheck with h | h <;> simp [h]

theorem drop_all_of_length {l : List Nat} {n : Nat} (h : l.length = n) :
    l.drop n = [] := by
  rw [← h]
  exact List.drop_length l

theorem process_operation_inc_eq (D : AddrDerivation) (u c s : AccountInfo)
    (st : Settings) (v : Int) (hsig : u.is_signer = true)
    (hcheck : c.is_writable = true ∨ check_counter_pk D u.key c.key = true)
    (hskey : s.key = D.settingsPk)
    (hs : decodeSettings s.data = some st) (hc : decodeCounter c.data = some v) :
    process_operation D [u, c, s] .inc =
      .ok [u.data, i64le (wrap64 (v + st.inc_step)), s.data] := by
  have hgate := counter_gate_passes hcheck
  have hlen : c.data.length = 8 := decodeCounter_length hc
  have hdrop : c.data.drop 8 = [] := drop_all_of_length hlen
  unfold process_operation storeCounterAt writeAll
  simp [hsig, hgate, check_settings_pk, hskey, hs, hc, length_i64le, hlen, hdrop]

theorem process_operation_dec_eq (D : AddrDerivation) (u c s : AccountInfo)
    (st : Settings) (v : Int) (hsig : u.is_signer = true)
    (hcheck : c.is_writable = true ∨ check_counter_pk D u.key c.key = true)
    (hskey : s.key = D.settingsPk)
    (hs : decodeSettings s.data = some st) (hc : decodeCounter c.data = some v) :
    process_operation D [u, c, s] .dec =
      .ok [u.data, i64le (wrap64 (v - st.dec_step)), s.data] := by
  have hgate := counter_gate_passes hcheck
  have hlen : c.data.length = 8 := decodeCounter_length hc
  have hdrop : c.data.drop 8 = [] := drop_all_of_length hlen
  unfold process_operation storeCounterAt writeAll
  simp [hsig, hgate, check_settings_pk, hskey, hs, hc, length_i64le, hlen, hdrop]

theorem process_reset_eq (D : AddrDerivation) (u c : AccountInfo) (v : Int)
    (hsig : u.is_signer = true)
    (hcheck : c.is_writable = true ∨ check_counter_pk D u.key c.key = true)
    (hc : decodeCounter c.data = some v) :
    process_reset D [u, c] = .ok [u.data, i64le 0] := by
  have hgate := counter_gate_passes hcheck
  have hlen : c.data.length = 8 := decodeCounter_length hc
  have hdrop : c.data.drop 8 = [] := drop_all_of_length hlen
  unfold process_reset storeCounterAt writeAll
  simp [hsig, hgate, hc, length_i64le, hlen, hdrop]

theorem process_operation_ok_shape (D : AddrDerivation) (accounts : List AccountInfo)
    (inst : CounterInstruction) (out : List (List Nat))
    (h : process_operation D accounts inst = .ok out) :
    ∃ b, out = (accounts.map AccountInfo.data).set 1 b := by
  unfold process_operation storeCounterAt writeAll at h
  repeat' split at h
  all_goals first
    | (injection h with h2; exact ⟨_, h2.symm⟩)
    | injection h

theorem process_upd_sett_eq (D : AddrDerivation) (a s r y : AccountInfo)
    (st : Settings) (adm : List Nat) (i d : Nat)
    (hsig : a.is_signer = true) (hw : a.is_writable = true)
    (hskey : s.key = D.settingsPk)
    (hs : decodeSettings s.data = some st)
    (hauth : st.admin = a.key ∨ st.admin = zero32)
    (hadm : adm.length = 32) :
    process_upd_sett D [a, s, r, y] adm i d =
      .ok [a.data, encodeSettings ⟨adm, i, d⟩, r.data, y.data] := by
  have hlen : s.data.length = 40 := decodeSettings_length hs
  have hne : ¬(s.data = []) := by
    intro h0
    rw [h0] at hlen
    simp at hlen
  have hgate : ¬(st.admin ≠ a.key ∧ st.admin ≠ zero32) := by
    rcases hauth with h | h <;> simp [h]
  have henc : (encodeSettings ⟨adm, i, d⟩).length = 40 := by
    simp [encodeSettings, u32le, hadm]
  have hdrop : s.data.drop 40 = [] := drop_all_of_length hlen
  unfold process_upd_sett writeAll
  simp [hsig, hw, check_settings_pk, hskey, hne, hs, hgate, henc, hlen, hdrop]

theorem process_upd_sett_admin_err (D : AddrDerivation) (a s r y : AccountInfo)
    (st : Settings) (adm : List Nat) (i d : Nat)
    (hsig : a.is_signer = true) (hw : a.is_writable = true)
    (hskey : s.key = D.settingsPk)
    (hs : decodeSettings s.data = some st)
    (hne2 : st.admin ≠ a.key) (hne3 : st.admin ≠ zero32) :
    process_upd_sett D [a, s, r, y] adm i d = .error (.custom adminRequiredCode) := by
  have hlen : s.data.length = 40 := decodeSettings_length hs
  have hne : ¬(s.data = []) := by
    intro h0
    rw [h0] at hlen
    simp at hlen
  unfold process_upd_sett
  simp [hsig, hw, check_settings_pk, hskey, hne, hs, hne2, hne3]

-- Claim theorems --------------------------------------------------------------

/-- C6: for every valid instruction value of the four variants — any 32-byte
admin address (all-zero and all-0xFF included) and any `u32` step values (0
and the maximum included) — `decode (encode x) = x`. -/
theorem c6_instr_roundtrip (x : CounterInstruction) (hv : validInstr x) :
    decodeInstr (encodeInstr x) = some x :=
  decodeInstr_encodeInstr x hv

/-- Witness for C6: the round trip at UpdSett with all-0xFF admin, maximum
`inc_step`, and zero `dec_step`. -/
theorem c6_instr_roundtrip_witness :
    validInstr (.updSett (List.replicate 32 255) (2 ^ 32 - 1) 0) ∧
    decodeInstr (encodeInstr (.updSett (List.replicate 32 255) (2 ^ 32 - 1) 0)) =
      some (.updSett (List.replicate 32 255) (2 ^ 32 - 1) 0) :=
  ⟨⟨by simp, by norm_num, by norm_num⟩,
   c6_instr_roundtrip _ ⟨by simp, by norm_num, by norm_num⟩⟩

/-- C7: the wire form puts the opcode in the first byte (0=Inc, 1=Dec,
2=Reset, 3=UpdSett); Inc, Dec and Reset are exactly one byte; UpdSett is
exactly 41 bytes — opcode, the 32 admin bytes, then `inc_step` and
`dec_step` as little-endian unsigned 32-bit integers, in that order. -/
theorem c7_wire_format :
    encodeInstr .inc = [0] ∧ encodeInstr .dec = [1] ∧ encodeInstr .reset = [2] ∧
    ∀ a i d, a.length = 32 →
      encodeInstr (.updSett a i d) =
        3 :: (a ++ [i % 256, i / 256 % 256, i / 65536 % 256, i / 16777216 % 256,
          d % 256, d / 256 % 256, d / 65536 % 256, d / 16777216 % 256]) ∧
      (encodeInstr (.updSett a i d)).length = 41 := by
  refine ⟨rfl, rfl, rfl, fun a i d ha => ⟨?_, ?_⟩⟩
  · simp [encodeInstr, u32le]
  · simp [encodeInstr, u32le, ha]

/-- Witness for C7: the UpdSett wire form at a concrete 32-byte admin. -/
theorem c7_wire_format_witness :
    encodeInstr (.updSett (List.replicate 32 255) 1 2) =
      3 :: (List.replicate 32 255 ++ [1 % 256, 1 / 256 % 256, 1 / 65536 % 256,
        1 / 16777216 % 256, 2 % 256, 2 / 256 % 256, 2 / 65536 % 256,
        2 / 16777216 % 256]) ∧
    (encodeInstr (.updSett (List.replicate 32 255) 1 2)).length = 41 :=
  c7_wire_format.2.2.2 (List.replicate 32 255) 1 2 (by simp)

/-- C10: a valid encoded instruction followed by any trailing bytes fails to
decode, and `process` on such input returns an error (so, the transaction
aborting, no account buffer is written). -/
theorem c10_trailing_bytes_rejected (x : CounterInstruction) (extra : List Nat)
    (hv : validInstr x) (hne : extra ≠ []) :
    decodeInstr (encodeInstr x ++ extra) = none ∧
    ∀ (D : AddrDerivation) (accounts : List AccountInfo),
      process D accounts (encodeInstr x ++ extra) = .error .borshFailed := by
  obtain ⟨e, es, rfl⟩ : ∃ e es, extra = e :: es := by
    cases extra with
    | nil => exact absurd rfl hne
    | cons e es => exact ⟨e, es, rfl⟩
  have hdec : decodeInstr (encodeInstr x ++ (e :: es)) = none := by
    cases x with
    | inc => simp [encodeInstr, decodeInstr]
    | dec => simp [encodeInstr, decodeInstr]
    | reset => simp [encodeInstr, decodeInstr]
    | updSett a i d =>
      obtain ⟨ha, _, _⟩ := hv
      have hdrop : (a ++ (u32le i ++ (u32le d ++ (e :: es)))).drop 32 =
          u32le i ++ (u32le d ++ (e :: es)) := by
        rw [← ha, List.drop_left]
      simp only [encodeInstr, decodeInstr, List.cons_append, List.append_assoc]
      norm_num
      rw [hdrop]
      simp [u32le]
  refine ⟨hdec, fun D accounts => ?_⟩
  simp [process, hdec]

/-- Witness for C10: a 2-byte buffer whose first byte is opcode 0. -/
theorem c10_trailing_bytes_rejected_witness :
    decodeInstr (encodeInstr .inc ++ [0]) = none ∧
    process fixDeriv [] (encodeInstr .inc ++ [0]) = .error .borshFailed := by
  have h := c10_trailing_bytes_rejected .inc [0] trivial (by simp)
  exact ⟨h.1, h.2 fixDeriv []⟩

/-- C1: for any stored settings whose admin field is non-zero (claimed), an
UpdSett whose signing admin differs from the stored admin fails
`AdminRequired` — the transaction aborts, so the stored settings bytes stay
byte-for-byte unchanged — and any UpdSett that succeeds against a claimed
settings record was signed by the stored admin (with an unclaimed record,
the zero sentinel, being the only other way past the check). -/
theorem c1_admin_authorization (D : AddrDerivation) (a s r y : AccountInfo)
    (st : Settings) (adm : List Nat) (i d : Nat)
    (hsig : a.is_signer = true) (hw : a.is_writable = true)
    (hskey : s.key = D.settingsPk)
    (hs : decodeSettings s.data = some st) (hcl : st.admin ≠ zero32) :
    (a.key ≠ st.admin →
      process_upd_sett D [a, s, r, y] adm i d = .error (.custom adminRequiredCode)) ∧
    (∀ out, process_upd_sett D [a, s, r, y] adm i d = .ok out → a.key = st.admin) := by
  constructor
  · intro hne
    exact process_upd_sett_admin_err D a s r y st adm i d hsig hw hskey hs
      (fun he => hne he.symm) hcl
  · intro out hok
    by_contra hne
    have herr := process_upd_sett_admin_err D a s r y st adm i d hsig hw hskey hs
      (fun he => hne he.symm) hcl
    rw [herr] at hok
    exact Except.noConfusion hok

/-- Witness for C1: settings claimed by the 32×3 key; a signer with the
32×5 key attempts UpdSett and gets `AdminRequired`. -/
theorem c1_admin_authorization_witness :
    process_upd_sett fixDeriv
      [fixOtherAdmin, {fixSettings with is_writable := true}, fixRent, fixSys]
      (List.replicate 32 4) 1 1 = .error (.custom adminRequiredCode) :=
  (c1_admin_authorization fixDeriv fixOtherAdmin {fixSettings with is_writable := true}
    fixRent fixSys ⟨List.replicate 32 3, 9, 5⟩ (List.replicate 32 4) 1 1
    rfl rfl (by decide) (by decide) (by decide)).1 (by decide)

/-- C2: for Inc, Dec and Reset the counter-address check fires only when the
counter slot is not writable: a signed call with a non-writable counter slot
at a mismatched address fails `WrongCounterPDA`, while with a writable
counter slot the outcome is independent of the counter-slot address (the
check is bypassed). -/
theorem c2_counter_check_writable_gate (D : AddrDerivation) (u c s : AccountInfo)
    (k1 k2 : List Nat) :
    (u.is_signer = true → c.is_writable = false → c.key ≠ D.counterPk u.key →
      process D [u, c, s] [0] = .error (.custom wrongCounterPDACode) ∧
      process D [u, c, s] [1] = .error (.custom wrongCounterPDACode) ∧
      process D [u, c] [2] = .error (.custom wrongCounterPDACode)) ∧
    (c.is_writable = true →
      process D [u, {c with key := k1}, s] [0] = process D [u, {c with key := k2}, s] [0] ∧
      process D [u, {c with key := k1}, s] [1] = process D [u, {c with key := k2}, s] [1] ∧
      process D [u, {c with key := k1}] [2] = process D [u, {c with key := k2}] [2]) := by
  constructor
  · intro hsig hw hkey
    have hchk : check_counter_pk D u.key c.key = false := by
      simp [check_counter_pk, hkey]
    refine ⟨?_, ?_, ?_⟩
    · show process_operation D [u, c, s] .inc = _
      unfold process_operation
      simp [hsig, hw, hchk]
    · show process_operation D [u, c, s] .dec = _
      unfold process_operation
      simp [hsig, hw, hchk]
    · show process_reset D [u, c] = _
      unfold process_reset
      simp [hsig, hw, hchk]
  · intro hw
    refine ⟨?_, ?_, ?_⟩
    · show process_operation D [u, {c with key := k1}, s] .inc =
        process_operation D [u, {c with key := k2}, s] .inc
      unfold process_operation storeCounterAt
      simp [hw]
    · show process_operation D [u, {c with key := k1}, s] .dec =
        process_operation D [u, {c with key := k2}, s] .dec
      unfold process_operation storeCounterAt
      simp [hw]
    · show process_reset D [u, {c with key := k1}] =
        process_reset D [u, {c with key := k2}]
      unfold process_reset storeCounterAt
      simp [hw]

/-- Witness for C2: the non-writable mismatched counter slot fails all three
operations with `WrongCounterPDA`, and with a writable counter slot two
different counter addresses give identical outcomes. -/
theorem c2_counter_check_writable_gate_witness :
    (process fixDeriv [fixUser, fixCounterRO, fixSettings] [0] =
        .error (.custom wrongCounterPDACode) ∧
      process fixDeriv [fixUser, fixCounterRO, fixSettings] [1] =
        .error (.custom wrongCounterPDACode) ∧
      process fixDeriv [fixUser, fixCounterRO] [2] =
        .error (.custom wrongCounterPDACode)) ∧
    (process fixDeriv [fixUser, {fixCounter with key := List.replicate 32 6}, fixSettings] [0] =
        process fixDeriv [fixUser, {fixCounter with key := List.replicate 32 13}, fixSettings] [0] ∧
      process fixDeriv [fixUser, {fixCounter with key := List.replicate 32 6}, fixSettings] [1] =
        process fixDeriv [fixUser, {fixCounter with key := List.replicate 32 13}, fixSettings] [1] ∧
      process fixDeriv [fixUser, {fixCounter with key := List.replicate 32 6}] [2] =
        process fixDeriv [fixUser, {fixCounter with key := List.replicate 32 13}] [2]) :=
  ⟨(c2_counter_check_writable_gate fixDeriv fixUser fixCounterRO fixSettings
      (List.replicate 32 6) (List.replicate 32 13)).1 rfl rfl (by decide),
   (c2_counter_check_writable_gate fixDeriv fixUser fixCounter fixSettings
      (List.replicate 32 6) (List.replicate 32 13)).2 rfl⟩

/-- C3 (code evaluation at the failing inputs): with a settings-slot address
different from the derived settings address but every other check passing,
Inc fails with `WrongCounterPDA` (custom code 1) and UpdSett fails with
`InvalidArgument` — neither is the `WrongSettingsPDA` failure kind (custom
code 2), which the program never returns. -/
theorem c3_wrong_settings_address_codes :
    process fixDeriv [fixUser, fixCounter, fixBadSettings] [0] =
      .error (.custom wrongCounterPDACode) ∧
    process fixDeriv [fixUser, fixCounter, fixBadSettings] [1] =
      .error (.custom wrongCounterPDACode) ∧
    process_upd_sett fixDeriv [fixAdmin, fixBadSettings, fixRent, fixSys]
      (List.replicate 32 4) 1 1 = .error .invalidArgument ∧
    wrongCounterPDACode ≠ wrongSettingsPDACode := by
  decide

/-- C4: from counter value `v` and stored settings `st`, a successful Inc
stores `v + inc_step` and a subsequent successful Dec stores that value
minus `dec_step`, in signed 64-bit (wrapping twos-complement) arithmetic. -/
theorem c4_inc_then_dec (D : AddrDerivation) (u c s : AccountInfo)
    (st : Settings) (v : Int) (hsig : u.is_signer = true)
    (hcheck : c.is_writable = true ∨ check_counter_pk D u.key c.key = true)
    (hskey : s.key = D.settingsPk)
    (hs : decodeSettings s.data = some st) (hc : decodeCounter c.data = some v) :
    process D [u, c, s] [0] = .ok [u.data, i64le (wrap64 (v + st.inc_step)), s.data] ∧
    decodeCounter (i64le (wrap64 (v + st.inc_step))) = some (wrap64 (v + st.inc_step)) ∧
    process D [u, {c with data := i64le (wrap64 (v + st.inc_step))}, s] [1] =
      .ok [u.data, i64le (wrap64 (wrap64 (v + st.inc_step) - st.dec_step)), s.data] ∧
    decodeCounter (i64le (wrap64 (wrap64 (v + st.inc_step) - st.dec_step))) =
      some (wrap64 (wrap64 (v + st.inc_step) - st.dec_step)) := by
  have hrt1 : decodeCounter (i64le (wrap64 (v + st.inc_step))) =
      some (wrap64 (v + st.inc_step)) :=
    decodeCounter_i64le _ (wrap64_lb _) (wrap64_ub _)
  have hrt2 : decodeCounter (i64le (wrap64 (wrap64 (v + st.inc_step) - st.dec_step))) =
      some (wrap64 (wrap64 (v + st.inc_step) - st.dec_step)) :=
    decodeCounter_i64le _ (wrap64_lb _) (wrap64_ub _)
  have hcheck2 : ({c with data := i64le (wrap64 (v + st.inc_step))} : AccountInfo).is_writable = true ∨
      check_counter_pk D u.key ({c with data := i64le (wrap64 (v + st.inc_step))} : AccountInfo).key = true := by
    rcases hcheck with h | h
    exacts [Or.inl h, Or.inr h]
  refine ⟨?_, hrt1, ?_, hrt2⟩
  · show process_operation D [u, c, s] .inc = _
    exact process_operation_inc_eq D u c s st v hsig hcheck hskey hs hc
  · show process_operation D [u, {c with data := i64le (wrap64 (v + st.inc_step))}, s] .dec = _
    exact process_operation_dec_eq D u _ s st _ hsig hcheck2 hskey hs hrt1

/-- Witness for C4: from `Settings{inc_step=9, dec_step=5}` and
`Counter{value=0}`, Inc stores 9 and a subsequent Dec stores 4. -/
theorem c4_inc_then_dec_witness :
    process fixDeriv [fixUser, fixCounter, fixSettings] [0] =
      .ok [fixUser.data, i64le (wrap64 (0 + (9 : Nat))), fixSettings.data] ∧
    decodeCounter (i64le (wrap64 (0 + (9 : Nat)))) = some (wrap64 (0 + (9 : Nat))) ∧
    process fixDeriv [fixUser, {fixCounter with data := i64le (wrap64 (0 + (9 : Nat)))},
        fixSettings] [1] =
      .ok [fixUser.data, i64le (wrap64 (wrap64 (0 + (9 : Nat)) - (5 : Nat))), fixSettings.data] ∧
    decodeCounter (i64le (wrap64 (wrap64 (0 + (9 : Nat)) - (5 : Nat)))) =
      some (wrap64 (wrap64 (0 + (9 : Nat)) - (5 : Nat))) :=
  c4_inc_then_dec fixDeriv fixUser fixCounter fixSettings
    ⟨List.replicate 32 3, 9, 5⟩ 0 rfl (Or.inl rfl) (by decide) (by decide) (by decide)

/-- C5: a successful Reset stores counter value 0 whatever the prior value;
the account list has no settings slot — Reset validates only the user signer
and counter slots and reads no settings account. -/
theorem c5_reset_zero (D : AddrDerivation) (u c : AccountInfo) (v : Int)
    (hsig : u.is_signer = true)
    (hcheck : c.is_writable = true ∨ check_counter_pk D u.key c.key = true)
    (hc : decodeCounter c.data = some v) :
    process D [u, c] [2] = .ok [u.data, i64le 0] ∧
    decodeCounter (i64le 0) = some 0 := by
  refine ⟨?_, decodeCounter_i64le 0 (by norm_num) (by norm_num)⟩
  show process_reset D [u, c] = _
  exact process_reset_eq D u c v hsig hcheck hc

/-- Witness for C5: Reset from a nonzero prior value stores 0. -/
theorem c5_reset_zero_witness :
    process fixDeriv [fixUser, {fixCounter with data := i64le 777}] [2] =
      .ok [fixUser.data, i64le 0] ∧
    decodeCounter (i64le 0) = some 0 :=
  c5_reset_zero fixDeriv fixUser {fixCounter with data := i64le 777} 777
    rfl (Or.inl rfl) (by decide)

/-- C8: a successful Inc or Dec invocation writes only the slot-1 (counter)
buffer: the returned buffers are the input buffers with only index 1
replaced, so the slot-0 (user) and slot-2 (settings) buffers are
byte-for-byte unchanged. -/
theorem c8_inc_dec_settings_frame (D : AddrDerivation) (accounts : List AccountInfo)
    (raw : List Nat) (out : List (List Nat))
    (hraw : raw = [0] ∨ raw = [1])
    (h : process D accounts raw = .ok out) :
    ∃ b, out = (accounts.map AccountInfo.data).set 1 b ∧
      out[0]? = (accounts.map AccountInfo.data)[0]? ∧
      out[2]? = (accounts.map AccountInfo.data)[2]? := by
  have hop : ∃ inst, process_operation D accounts inst = .ok out := by
    rcases hraw with rfl | rfl
    · exact ⟨.inc, h⟩
    · exact ⟨.dec, h⟩
  obtain ⟨inst, hop⟩ := hop
  obtain ⟨b, hb⟩ := process_operation_ok_shape D accounts inst out hop
  subst hb
  exact ⟨b, rfl, List.getElem?_set_ne (by norm_num), List.getElem?_set_ne (by norm_num)⟩

/-- Witness for C8: a concrete successful Inc leaves the settings (and user)
buffers unchanged. -/
theorem c8_inc_dec_settings_frame_witness :
    ∃ b, [fixUser.data, i64le 9, fixSettings.data] =
        (([fixUser, fixCounter, fixSettings].map AccountInfo.data).set 1 b) ∧
      [fixUser.data, i64le 9, fixSettings.data][0]? =
        ([fixUser, fixCounter, fixSettings].map AccountInfo.data)[0]? ∧
      [fixUser.data, i64le 9, fixSettings.data][2]? =
        ([fixUser, fixCounter, fixSettings].map AccountInfo.data)[2]? :=
  c8_inc_dec_settings_frame fixDeriv [fixUser, fixCounter, fixSettings] [0]
    [fixUser.data, i64le 9, fixSettings.data] (Or.inl rfl) (by decide)

/-- C9: once the authorization check passes, the admin payload of the instruction
is stored unconditionally — in particular the current admin may store the
zero sentinel, and on the resulting unclaimed record a subsequent UpdSett
signed by any address succeeds. -/
theorem c9_upd_sett_stores_admin_unconditionally (D : AddrDerivation)
    (a s r y : AccountInfo) (st : Settings) (adm : List Nat) (i d : Nat)
    (hsig : a.is_signer = true) (hw : a.is_writable = true)
    (hskey : s.key = D.settingsPk)
    (hs : decodeSettings s.data = some st)
    (hauth : st.admin = a.key ∨ st.admin = zero32)
    (hadm : adm.length = 32) :
    process_upd_sett D [a, s, r, y] adm i d =
      .ok [a.data, encodeSettings ⟨adm, i, d⟩, r.data, y.data] ∧
    (adm = zero32 → i < 2 ^ 32 → d < 2 ^ 32 →
      ∀ (a2 : AccountInfo) (adm2 : List Nat) (i2 d2 : Nat),
        a2.is_signer = true → a2.is_writable = true → adm2.length = 32 →
        process_upd_sett D [a2, {s with data := encodeSettings ⟨adm, i, d⟩}, r, y] adm2 i2 d2 =
          .ok [a2.data, encodeSettings ⟨adm2, i2, d2⟩, r.data, y.data]) := by
  refine ⟨process_upd_sett_eq D a s r y st adm i d hsig hw hskey hs hauth hadm, ?_⟩
  intro hz hi hd a2 adm2 i2 d2 hsig2 hw2 hadm2
  have hdec : decodeSettings (encodeSettings ⟨adm, i, d⟩) = some ⟨adm, i, d⟩ :=
    decodeSettings_encodeSettings ⟨adm, i, d⟩ hadm hi hd
  exact process_upd_sett_eq D a2 {s with data := encodeSettings ⟨adm, i, d⟩} r y
    ⟨adm, i, d⟩ adm2 i2 d2 hsig2 hw2 hskey hdec (Or.inr hz) hadm2

/-- Witness for C9: the current admin stores the zero sentinel, then a
an UpdSett by a different signer succeeds on the unclaimed record. -/
theorem c9_upd_sett_stores_admin_unconditionally_witness :
    process_upd_sett fixDeriv
      [fixAdmin, {fixSettings with is_writable := true}, fixRent, fixSys] zero32 7 8 =
      .ok [fixAdmin.data, encodeSettings ⟨zero32, 7, 8⟩, fixRent.data, fixSys.data] ∧
    process_upd_sett fixDeriv
      [fixOtherAdmin,
        {{fixSettings with is_writable := true} with data := encodeSettings ⟨zero32, 7, 8⟩},
        fixRent, fixSys] (List.replicate 32 5) 1 2 =
      .ok [fixOtherAdmin.data, encodeSettings ⟨List.replicate 32 5, 1, 2⟩,
        fixRent.data, fixSys.data] := by
  have h := c9_upd_sett_stores_admin_unconditionally fixDeriv fixAdmin
    {fixSettings with is_writable := true} fixRent fixSys
    ⟨List.replicate 32 3, 9, 5⟩ zero32 7 8
    rfl rfl (by decide) (by decide) (Or.inl (by decide)) (by decide)
  exact ⟨h.1, h.2 rfl (by norm_num) (by norm_num) fixOtherAdmin
    (List.replicate 32 5) 1 2 rfl rfl (by decide)⟩
